import Mathlib

/-!
# Verification of the book-scraper pipeline (`src/app.py`)

Shallow embedding of the scraper / analyzer / database classes of `app.py`
into Lean 4, together with proofs settling the specification claims.

Modelling conventions:
* Python strings are `String` / `List Char`; `str.replace` is modelled by
  `replaceAll` (leftmost, non-overlapping, all occurrences).
* `float(...)` / `.astype(float)` conversion of a price string is modelled
  by `pyFloat?` returning `Option ℚ` (`none` = `ValueError`); the grammar
  covers optional surrounding whitespace, an optional sign and a decimal
  literal, which is the fragment exercised by price texts.
* A pandas column operation that raises aborts the whole `_preprocess`
  call, hence `_preprocess : List RawBook → Option (List PreBook)` where
  `none` means the conversion of the price column raised for some row.
* `Series.map` on the rating column yields NaN for an unmatched token;
  NaN is modelled as `none` in `rating_numeric : Option Int`.
* The sqlite table has `rating INTEGER NOT NULL`; inserting a NaN rating
  binds NULL and violates the constraint, so the insert raises and is
  caught (`insert_one` returns the unchanged database and `false`).
* Network fetching plus HTML parsing of one page is abstracted as an
  oracle `fp : Nat → Option (List PodItem)`: `none` models a fetch that
  returns no usable body (non-200 status or transport error), `some items`
  the parsed `article.product_pod` containers of the page.
-/

/-- One extracted `article.product_pod` container: the raw sub-fields read
by `scrape_books_from_page` before URL fix-up. -/
structure PodItem where
  title : String
  price : String
  availability : String
  rating : String
  href : String
deriving DecidableEq, Repr

/-- One dictionary appended to `self.books` by `scrape_books_from_page`. -/
structure RawBook where
  title : String
  price : String
  availability : String
  rating : String
  url : String
deriving DecidableEq, Repr

/-- `self.base_url` of `BookScraper`. -/
def base_url : String := "http://books.toscrape.com/"

/-- Substring containment test on character lists. -/
def containsSub (pat s : List Char) : Bool :=
  s.tails.any (fun t => pat.isPrefixOf t)

/-- Python `"catalogue/" in href` (substring containment). -/
def hrefHasCatalogue (href : String) : Bool :=
  containsSub "catalogue/".data href.data

/-- The per-item body of the loop in `scrape_books_from_page`: fix the
href and build the book dictionary. -/
def make_book (it : PodItem) : RawBook :=
  let href := if hrefHasCatalogue it.href then it.href else "catalogue/" ++ it.href
  { title := it.title
    price := it.price
    availability := it.availability
    rating := it.rating
    url := base_url ++ href }

/-- Fuelled worker for `replaceAll`; the fuel only bounds the recursion
depth (one unit per character consumed) and never runs out when it starts
at the string's length. -/
def replaceAllAux (pat rep : List Char) : Nat → List Char → List Char
  | _, [] => []
  | 0, s => s
  | fuel + 1, c :: cs =>
    if pat.isPrefixOf (c :: cs) && !pat.isEmpty then
      rep ++ replaceAllAux pat rep fuel (cs.drop (pat.length - 1))
    else
      c :: replaceAllAux pat rep fuel cs

/-- `str.replace pat rep`: replace every leftmost non-overlapping
occurrence of `pat` (non-empty in all our uses) by `rep`. -/
def replaceAll (pat rep s : List Char) : List Char :=
  replaceAllAux pat rep s.length s

/-- `.str.replace("Â£", "", regex=False).str.replace("£", "", regex=False)`
from `BookDataAnalyzer._preprocess`. -/
def strip_price (s : List Char) : List Char :=
  replaceAll ['£'] [] (replaceAll ['Â', '£'] [] s)

/-- Numeric value of a digit string (most significant first). -/
def digitsToNat (ds : List Char) : Nat :=
  ds.foldl (fun a c => a * 10 + (c.toNat - 48)) 0

/-- Unsigned decimal literal: digits, optionally a point and more digits;
at least one digit overall. -/
def pyFloatCore (s : List Char) : Option ℚ :=
  let ip := s.takeWhile Char.isDigit
  match s.dropWhile Char.isDigit with
  | [] => if ip.isEmpty then none else some (digitsToNat ip)
  | '.' :: fp =>
    if fp.all Char.isDigit && (!ip.isEmpty || !fp.isEmpty) then
      some ((digitsToNat ip : ℚ) + (digitsToNat fp : ℚ) / (10 ^ fp.length))
    else none
  | _ => none

/-- Python `float(s)` on the decimal fragment: optional whitespace, an
optional sign, then a decimal literal. `none` models `ValueError`. -/
def pyFloat? (s : List Char) : Option ℚ :=
  let t := ((s.dropWhile Char.isWhitespace).reverse.dropWhile Char.isWhitespace).reverse
  match t with
  | '-' :: r => (pyFloatCore r).map (fun q => -q)
  | '+' :: r => pyFloatCore r
  | r => pyFloatCore r

/-- Price conversion of one cell: strip the glyphs, then `float(...)`. -/
def price_cell (s : String) : Option ℚ :=
  pyFloat? (strip_price s.data)

/-- The rating dictionary `rm = {"One": 1, "Two": 2, "Three": 3, "Four": 4,
"Five": 5}`; `Series.map` yields NaN (`none`) for a token not in the
dictionary. -/
def rm (s : String) : Option Int :=
  if s = "One" then some 1
  else if s = "Two" then some 2
  else if s = "Three" then some 3
  else if s = "Four" then some 4
  else if s = "Five" then some 5
  else none

/-- A row of the analyzer's dataframe after `_preprocess`: the raw columns
plus `price_numeric` and `rating_numeric` (NaN as `none`). -/
structure PreBook where
  title : String
  price : String
  availability : String
  rating : String
  url : String
  price_numeric : ℚ
  rating_numeric : Option Int
deriving DecidableEq, Repr

/-- The per-row effect of `_preprocess`: the price cell converted with
`float(...)` (failure propagates) and the rating cell mapped through the
dictionary (failure does not). -/
def preprocess_row (b : RawBook) : Option PreBook :=
  (price_cell b.price).map (fun q =>
    { title := b.title
      price := b.price
      availability := b.availability
      rating := b.rating
      url := b.url
      price_numeric := q
      rating_numeric := rm b.rating })

/-- `BookDataAnalyzer._preprocess` on the whole frame: the price column is
converted with `.astype(float)`, which raises for the entire call if any
cell fails (`none`); the rating column is mapped cell-wise, unmatched
tokens becoming NaN. -/
def _preprocess (books : List RawBook) : Option (List PreBook) :=
  books.mapM preprocess_row

/-- A row of the sqlite `books` table. -/
structure StoredBook where
  id : Nat
  title : String
  price : ℚ
  rating : Int
  availability : String
  url : String
deriving DecidableEq, Repr

/-- The sqlite database: rows in insertion (rowid) order plus the next
AUTOINCREMENT id. -/
structure DB where
  rows : List StoredBook
  next_id : Nat
deriving DecidableEq, Repr

/-- A freshly (re)created database: `BookDatabase.__init__` removes the
file and recreates the table; AUTOINCREMENT starts at 1. -/
def resetDB : DB := { rows := [], next_id := 1 }

/-- One `INSERT INTO books ...` for a dataframe row.  A NaN
`rating_numeric` binds NULL into the `NOT NULL` rating column: the insert
raises, is caught, and the row count is not incremented. -/
def insert_one (db : DB) (b : PreBook) : DB × Bool :=
  match b.rating_numeric with
  | none => (db, false)
  | some r =>
    ({ rows := db.rows ++
        [{ id := db.next_id
           title := b.title
           price := b.price_numeric
           rating := r
           availability := b.availability
           url := b.url }]
       next_id := db.next_id + 1 }, true)

/-- The row loop of `insert_books`: `existing` is the title snapshot taken
once before the loop and never updated inside it. -/
def insert_loop (existing : List String) (db : DB) (count : Nat) :
    List PreBook → DB × Nat
  | [] => (db, count)
  | b :: bs =>
    if b.title ∈ existing then
      insert_loop existing db count bs
    else
      match insert_one db b with
      | (db', true) => insert_loop existing db' (count + 1) bs
      | (db', false) => insert_loop existing db' count bs

/-- `BookDatabase.insert_books`: early return on an empty frame, otherwise
snapshot the known titles and run the row loop; the returned number is the
printed `Inserted {count} new books.` count. -/
def insert_books (db : DB) (books : List PreBook) : DB × Nat :=
  if books.isEmpty then (db, 0)
  else insert_loop (db.rows.map (fun r => r.title)) db 0 books

/-- `BookScraper.scrape_books_from_page`: fetch one page, parse it, and
append one book per container to the accumulated list.  Returns `false`
(and appends nothing) when the fetch yields no usable body or the page has
no `article.product_pod` containers. -/
def scrape_books_from_page (fp : Nat → Option (List PodItem))
    (books : List RawBook) (page_num : Nat) : List RawBook × Bool :=
  match fp page_num with
  | none => (books, false)
  | some [] => (books, false)
  | some items => (books ++ items.map make_book, true)

/-- The `for i in range(1, num_pages + 1)` loop of `scrape_multiple_pages`,
instrumented with the list of page numbers fetched so far: each iteration
fetches its page (recorded in `fetched`) and breaks when
`scrape_books_from_page` returns `false`. -/
def scrape_loop (fp : Nat → Option (List PodItem)) (books : List RawBook)
    (fetched : List Nat) (start : Nat) : Nat → List RawBook × List Nat
  | 0 => (books, fetched)
  | remaining + 1 =>
    match scrape_books_from_page fp books start with
    | (books', true) => scrape_loop fp books' (fetched ++ [start]) (start + 1) remaining
    | (books', false) => (books', fetched ++ [start])

/-- `BookScraper.scrape_multiple_pages` with the fetch log exposed. -/
def scrape_run (fp : Nat → Option (List PodItem)) (books : List RawBook)
    (num_pages : Nat) : List RawBook × List Nat :=
  scrape_loop fp books [] 1 num_pages

/-- `BookScraper.scrape_multiple_pages`: runs the page loop starting from
the instance's accumulated `self.books` and returns `self.books`. -/
def scrape_multiple_pages (fp : Nat → Option (List PodItem))
    (books : List RawBook) (num_pages : Nat) : List RawBook :=
  (scrape_run fp books num_pages).1

/-- The books appended for page `i`: the page's containers mapped through
`make_book` (empty when the fetch fails or the page is empty). -/
def pageBooks (fp : Nat → Option (List PodItem)) (i : Nat) : List RawBook :=
  ((fp i).getD []).map make_book

/-- Whether the loop continues past page `i`: the fetch succeeded and the
page had at least one container. -/
def pageOk (fp : Nat → Option (List PodItem)) (i : Nat) : Bool :=
  match fp i with
  | none => false
  | some [] => false
  | some (_ :: _) => true

/-- The number of consecutive good pages starting at `start`, capped at
`remaining`: the pages whose records end up in the result. -/
def goodRun (fp : Nat → Option (List PodItem)) (start : Nat) : Nat → Nat
  | 0 => 0
  | remaining + 1 =>
    if pageOk fp start then goodRun fp (start + 1) remaining + 1 else 0

/-- The `WHERE rating >= ? AND price <= ?` row filter of the `/search`
route. -/
def searchMatch (min_r : Int) (max_p : ℚ) (r : StoredBook) : Bool :=
  min_r ≤ r.rating && r.price ≤ max_p

/-- The `ORDER BY rating DESC, price ASC` sort key as a total preorder:
`a` comes no later than `b`. -/
def searchLE (a b : StoredBook) : Prop :=
  b.rating < a.rating ∨ (a.rating = b.rating ∧ a.price ≤ b.price)

instance : DecidableRel searchLE := fun a b => by
  unfold searchLE
  infer_instance

/-- The `/search` route's `SELECT ... WHERE rating >= ? AND price <= ?
ORDER BY rating DESC, price ASC`, as the set of result lists the statement
may return.  SQLite guarantees that the output is some permutation of the
matching rows arranged according to the two ORDER BY keys, but documents
the relative order of rows that compare equal under those keys as
undefined, so the query is modelled as a relation between the store and
the admissible output lists rather than as a function. -/
def search_results (db : DB) (min_r : Int) (max_p : ℚ)
    (out : List StoredBook) : Prop :=
  out.Perm (db.rows.filter (searchMatch min_r max_p)) ∧
    out.Pairwise searchLE

/-- Result of `BookDataAnalyzer.get_summary_stats`: either the sentinel
dictionary `{"total_books": 0}` for an empty frame, or the full statistics
dictionary.  `avg_rating` is `none` when the mean is NaN (all ratings
unmatched): pandas `.mean()` skips NaN cells. -/
inductive SummaryStats where
  | emptyFrame : SummaryStats
  | full (total_books : Nat) (avg_price min_price max_price : ℚ)
      (avg_rating : Option ℚ) : SummaryStats
deriving DecidableEq, Repr

/-- `total_books` of a stats dictionary. -/
def SummaryStats.total_books : SummaryStats → Nat
  | emptyFrame => 0
  | full n _ _ _ _ => n

/-- Mean of the non-NaN cells of the rating column (pandas `.mean()`
skips NaN; all-NaN gives NaN, modelled `none`). -/
def ratingMean (books : List PreBook) : Option ℚ :=
  let vals := books.filterMap (fun b => b.rating_numeric)
  if vals.isEmpty then none
  else some ((vals.map (fun r => (r : ℚ))).sum / vals.length)

/-- `BookDataAnalyzer.get_summary_stats`: the empty-frame branch returns
the sentinel without touching the numeric columns; otherwise the means and
extrema are computed over the non-empty columns. -/
def get_summary_stats (books : List PreBook) : SummaryStats :=
  match books with
  | [] => SummaryStats.emptyFrame
  | b :: bs =>
    SummaryStats.full (b :: bs).length
      (((b :: bs).map (fun x => x.price_numeric)).sum / (b :: bs).length)
      (bs.foldl (fun acc x => min acc x.price_numeric) b.price_numeric)
      (bs.foldl (fun acc x => max acc x.price_numeric) b.price_numeric)
      (ratingMean (b :: bs))

/-- The `rating_numeric >= min_rating` filter of `get_best_value_book`;
a NaN rating compares false. -/
def ratingAtLeast (min_rating : Int) (b : PreBook) : Bool :=
  match b.rating_numeric with
  | none => false
  | some r => min_rating ≤ r

/-- `sort_values("price_numeric")` key as a total preorder. -/
def priceLE (a b : PreBook) : Prop :=
  a.price_numeric ≤ b.price_numeric

instance : DecidableRel priceLE := fun a b => by
  unfold priceLE
  infer_instance

/-- `BookDataAnalyzer.get_best_value_book`: empty-frame sentinel, else
filter to `rating_numeric >= min_rating`, sort ascending by
`price_numeric`, and `head(n)`. -/
def get_best_value_book (books : List PreBook) (min_rating : Int) (n : Nat) :
    List PreBook :=
  match books with
  | [] => []
  | _ =>
    (((books.filter (ratingAtLeast min_rating)).insertionSort priceLE).take n)

/-! ## Concrete fixtures used by examples, witnesses and counterexamples -/

/-- A raw record whose price parses and whose rating token is in the
vocabulary. -/
def goodRaw : RawBook :=
  { title := "Good Book", price := "£51", availability := "In stock"
    rating := "Three", url := "http://books.toscrape.com/catalogue/g.html" }

/-- `goodRaw` after `_preprocess`. -/
def goodPre : PreBook :=
  { title := "Good Book", price := "£51", availability := "In stock"
    rating := "Three", url := "http://books.toscrape.com/catalogue/g.html"
    price_numeric := 51, rating_numeric := some 3 }

/-- A raw record whose price remainder is non-numeric. -/
def badPriceRaw : RawBook :=
  { title := "Bad Book", price := "£not-a-price", availability := "In stock"
    rating := "Four", url := "http://books.toscrape.com/catalogue/b.html" }

/-- A raw record whose rating token is outside the five-word vocabulary. -/
def oddRaw : RawBook :=
  { title := "Odd Book", price := "£10", availability := "In stock"
    rating := "Six", url := "http://books.toscrape.com/catalogue/o.html" }

/-- `oddRaw` after `_preprocess`: the rating is NaN. -/
def oddPre : PreBook :=
  { title := "Odd Book", price := "£10", availability := "In stock"
    rating := "Six", url := "http://books.toscrape.com/catalogue/o.html"
    price_numeric := 10, rating_numeric := none }

/-- Two distinct normalized records sharing the same previously-unseen
title. -/
def twinPre1 : PreBook :=
  { title := "Twin", price := "£1", availability := "In stock"
    rating := "Five", url := "u1", price_numeric := 1, rating_numeric := some 5 }

/-- Second record with the same title as `twinPre1`. -/
def twinPre2 : PreBook :=
  { title := "Twin", price := "£2", availability := "In stock"
    rating := "Four", url := "u2", price_numeric := 2, rating_numeric := some 4 }

/-- Normalized record A of the query examples: rating 5, price 15. -/
def preA : PreBook :=
  { title := "A", price := "£15", availability := "In stock"
    rating := "Five", url := "ua", price_numeric := 15, rating_numeric := some 5 }

/-- Normalized record B of the query examples: rating 3, price 10. -/
def preB : PreBook :=
  { title := "B", price := "£10", availability := "In stock"
    rating := "Three", url := "ub", price_numeric := 10, rating_numeric := some 3 }

/-- Normalized record C of the query examples: rating 4, price 18. -/
def preC : PreBook :=
  { title := "C", price := "£18", availability := "In stock"
    rating := "Four", url := "uc", price_numeric := 18, rating_numeric := some 4 }

/-- Stored record A: rating 5, price 15. -/
def storedA : StoredBook :=
  { id := 1, title := "A", price := 15, rating := 5
    availability := "In stock", url := "ua" }

/-- Stored record B: rating 3, price 10. -/
def storedB : StoredBook :=
  { id := 2, title := "B", price := 10, rating := 3
    availability := "In stock", url := "ub" }

/-- Stored record C: rating 4, price 18. -/
def storedC : StoredBook :=
  { id := 3, title := "C", price := 18, rating := 4
    availability := "In stock", url := "uc" }

/-- The store of the worked `query` example: A, B, C in insertion order. -/
def exampleDB : DB := { rows := [storedA, storedB, storedC], next_id := 4 }

/-- A stored row that ties with `tieRow2` on both ORDER BY keys. -/
def tieRow1 : StoredBook :=
  { id := 1, title := "Tie One", price := 10, rating := 4
    availability := "In stock", url := "t1" }

/-- A second stored row with the same rating and price as `tieRow1`. -/
def tieRow2 : StoredBook :=
  { id := 2, title := "Tie Two", price := 10, rating := 4
    availability := "In stock", url := "t2" }

/-- A store holding two rows that compare equal under
`ORDER BY rating DESC, price ASC`. -/
def tieDB : DB := { rows := [tieRow1, tieRow2], next_id := 3 }

/-- A one-item page container used by the pagination fixtures. -/
def podItem (n : Nat) : PodItem :=
  { title := s!"T{n}", price := "£5", availability := "In stock"
    rating := "One", href := s!"p{n}.html" }

/-- Pagination fixture: pages 1 and 2 have items, page 3 exists but has
zero containers, later pages would have items again. -/
def fpEx : Nat → Option (List PodItem)
  | 1 => some [podItem 1, podItem 2]
  | 2 => some [podItem 3]
  | 3 => some []
  | _ => some [podItem 9]

/-- Pagination fixture whose first page fetch fails. -/
def fpFail : Nat → Option (List PodItem) :=
  fun _ => none

/-! ## Helper lemmas about `replaceAll` and `strip_price` -/

/-- If the first character of the pattern occurs nowhere in the string,
`replaceAllAux` leaves the string unchanged, whatever the fuel. -/
theorem replaceAllAux_not_head (p : Char) (pr rep : List Char) :
    ∀ (fuel : Nat) (s : List Char), p ∉ s →
      replaceAllAux (p :: pr) rep fuel s = s := by
  intro fuel
  induction fuel with
  | zero =>
    intro s _
    cases s <;> rfl
  | succ n ih =>
    intro s hs
    cases s with
    | nil => rfl
    | cons c cs =>
      have hpc : p ≠ c := by
        intro h
        exact hs (h ▸ List.mem_cons_self _ _)
      have hpre : (p :: pr).isPrefixOf (c :: cs) = false := by
        simp [List.isPrefixOf, hpc]
      have hcs : p ∉ cs := fun h => hs (List.mem_cons_of_mem _ h)
      simp [replaceAllAux, hpre, ih cs hcs]

/-- `replaceAll` is the identity when the pattern head never occurs. -/
theorem replaceAll_not_head (p : Char) (pr rep : List Char) (s : List Char)
    (h : p ∉ s) : replaceAll (p :: pr) rep s = s :=
  replaceAllAux_not_head p pr rep s.length s h

/-- Stripping a glyph-free string is a no-op. -/
theorem strip_price_glyph_free (s : List Char) (hp : '£' ∉ s)
    (ha : 'Â' ∉ s) : strip_price s = s := by
  unfold strip_price
  rw [replaceAll_not_head 'Â' ['£'] [] s ha, replaceAll_not_head '£' [] [] s hp]

/-- Stripping removes a leading plain `£` from a glyph-free remainder. -/
theorem strip_price_pound (s : List Char) (hp : '£' ∉ s) (ha : 'Â' ∉ s) :
    strip_price ('£' :: s) = s := by
  unfold strip_price
  have h1 : replaceAll ['Â', '£'] [] ('£' :: s) = '£' :: s := by
    refine replaceAll_not_head 'Â' ['£'] [] ('£' :: s) ?_
    intro h
    rcases List.mem_cons.mp h with h | h
    · exact absurd h (by decide)
    · exact ha h
  rw [h1]
  show replaceAllAux ['£'] [] (s.length + 1) ('£' :: s) = s
  have hpre : (['£'] : List Char).isPrefixOf ('£' :: s) = true := by
    simp [List.isPrefixOf]
  simp only [replaceAllAux, hpre, Bool.true_and, List.isEmpty_cons,
    Bool.not_false, List.drop_zero, List.nil_append, if_pos]
  exact replaceAllAux_not_head '£' [] [] s.length s hp

/-- Stripping removes a leading double-encoded `Â£` artifact from a
glyph-free remainder. -/
theorem strip_price_artifact (s : List Char) (hp : '£' ∉ s) (ha : 'Â' ∉ s) :
    strip_price ('Â' :: '£' :: s) = s := by
  unfold strip_price
  have h1 : replaceAll ['Â', '£'] [] ('Â' :: '£' :: s) = s := by
    show replaceAllAux ['Â', '£'] [] (s.length + 1 + 1) ('Â' :: '£' :: s) = s
    have hpre : (['Â', '£'] : List Char).isPrefixOf ('Â' :: '£' :: s) = true := by
      simp [List.isPrefixOf]
    simp only [replaceAllAux, hpre, Bool.true_and, List.isEmpty_cons,
      Bool.not_false, List.nil_append, if_pos]
    show replaceAllAux ['Â', '£'] [] (s.length + 1) (('£' :: s).drop 1) = s
    rw [List.drop_one, List.tail_cons]
    exact replaceAllAux_not_head 'Â' ['£'] [] (s.length + 1) s ha
  rw [h1, replaceAll_not_head '£' [] [] s hp]

/-! ## C6: currency-glyph stripping -/

/-- C6 (confirmed): for every glyph-free price remainder, normalization
strips a leading plain `£` and a leading double-encoded `Â£` artifact and
yields the same numeric value as the glyph-free form, and normalizing an
already glyph-free string leaves it (and its numeric value) unchanged; in
particular `"£51.77" → 51.77`, `"Â£51.77" → 51.77` and `"51.77" → 51.77`. -/
theorem C6_price_glyph_stripping :
    (∀ s : List Char, '£' ∉ s → 'Â' ∉ s →
        strip_price ('£' :: s) = s ∧
        strip_price ('Â' :: '£' :: s) = s ∧
        strip_price s = s ∧
        pyFloat? (strip_price ('£' :: s)) = pyFloat? s ∧
        pyFloat? (strip_price ('Â' :: '£' :: s)) = pyFloat? s ∧
        pyFloat? (strip_price s) = pyFloat? s) ∧
    price_cell "£51.77" = some (5177 / 100) ∧
    price_cell "Â£51.77" = some (5177 / 100) ∧
    price_cell "51.77" = some (5177 / 100) := by
  refine ⟨?_, ?_, ?_, ?_⟩
  · intro s hp ha
    have h1 := strip_price_pound s hp ha
    have h2 := strip_price_artifact s hp ha
    have h3 := strip_price_glyph_free s hp ha
    exact ⟨h1, h2, h3, by rw [h1], by rw [h2], by rw [h3]⟩
  · have h : price_cell "£51.77" = some ((51 : ℚ) + 77 / 10 ^ 2) := rfl
    rw [h]
    norm_num
  · have h : price_cell "Â£51.77" = some ((51 : ℚ) + 77 / 10 ^ 2) := rfl
    rw [h]
    norm_num
  · have h : price_cell "51.77" = some ((51 : ℚ) + 77 / 10 ^ 2) := rfl
    rw [h]
    norm_num

/-- Witness for C6 at the concrete remainder `"51.77"`. -/
theorem C6_witness :
    ('£' ∉ "51.77".data ∧ 'Â' ∉ "51.77".data) ∧
      strip_price ('£' :: "51.77".data) = "51.77".data ∧
      strip_price "51.77".data = "51.77".data :=
  ⟨⟨by decide, by decide⟩,
    (C6_price_glyph_stripping.1 "51.77".data (by decide) (by decide)).1,
    (C6_price_glyph_stripping.1 "51.77".data (by decide) (by decide)).2.2.1⟩

/-! ## C2: a non-numeric price fails the whole batch -/

/-- Recursion equation for `_preprocess` on a cons cell. -/
theorem _preprocess_cons (b : RawBook) (bs : List RawBook) :
    _preprocess (b :: bs) =
      (preprocess_row b).bind
        (fun p => (_preprocess bs).map (fun ps => p :: ps)) := by
  unfold _preprocess
  rw [← List.mapM'_eq_mapM, ← List.mapM'_eq_mapM]
  cases h1 : preprocess_row b <;> cases h2 : bs.mapM' preprocess_row <;>
    simp [List.mapM'_cons, h1, h2, Option.bind]

/-- `_preprocess` fails exactly when some row's price cell fails to
convert: `.astype(float)` raises for the whole column. -/
theorem _preprocess_eq_none_iff (books : List RawBook) :
    _preprocess books = none ↔ ∃ b ∈ books, price_cell b.price = none := by
  induction books with
  | nil =>
    have h : _preprocess [] = some [] := rfl
    simp [h]
  | cons b bs ih =>
    rw [_preprocess_cons]
    constructor
    · intro h
      cases hb : preprocess_row b with
      | none =>
        refine ⟨b, List.mem_cons_self _ _, ?_⟩
        by_contra hp
        cases hq : price_cell b.price with
        | none => exact hp hq
        | some q => simp [preprocess_row, hq] at hb
      | some p =>
        rw [hb] at h
        cases hr : _preprocess bs with
        | none =>
          obtain ⟨x, hx, hpx⟩ := ih.mp hr
          exact ⟨x, List.mem_cons_of_mem _ hx, hpx⟩
        | some ps => simp [hr] at h
    · rintro ⟨x, hx, hpx⟩
      rcases List.mem_cons.mp hx with rfl | hx
      · simp [preprocess_row, hpx]
      · have : _preprocess bs = none := ih.mpr ⟨x, hx, hpx⟩
        cases hb : preprocess_row b <;> simp [this]

/-- C2 (counterexample): one record with a non-numeric price remainder
fails normalization of the *whole* batch — the other record of the batch,
which normalizes fine on its own, yields nothing when batched with the bad
one, contradicting "that record is dropped and normalization of the other
records in the batch continues and succeeds". -/
theorem C2_counterexample :
    _preprocess [goodRaw, badPriceRaw] = none ∧
      _preprocess [goodRaw] = some [goodPre] := by
  constructor <;> decide

/-- C2 (amended): a price text whose remainder after glyph stripping is
non-numeric makes `_preprocess` fail for the entire batch (`.astype(float)`
raises for the whole column); conversely, if every record's price parses,
the whole batch normalizes. -/
theorem C2_price_failure_aborts_batch :
    (∀ books : List RawBook,
        (∃ b ∈ books, price_cell b.price = none) → _preprocess books = none) ∧
    (∀ books : List RawBook,
        (∀ b ∈ books, price_cell b.price ≠ none) →
          ∃ ps, _preprocess books = some ps) := by
  constructor
  · intro books h
    exact (_preprocess_eq_none_iff books).mpr h
  · intro books h
    cases hp : _preprocess books with
    | none =>
      obtain ⟨b, hb, hbp⟩ := (_preprocess_eq_none_iff books).mp hp
      exact absurd hbp (h b hb)
    | some ps => exact ⟨ps, rfl⟩

/-- Witness for C2 at the concrete two-record batch. -/
theorem C2_witness :
    (∃ b ∈ [goodRaw, badPriceRaw], price_cell b.price = none) ∧
      _preprocess [goodRaw, badPriceRaw] = none :=
  ⟨⟨badPriceRaw, by decide, by decide⟩,
    C2_price_failure_aborts_batch.1 [goodRaw, badPriceRaw]
      ⟨badPriceRaw, by decide, by decide⟩⟩

/-! ## C1: rating vocabulary and what happens outside it -/

/-- `rm` only produces ratings between 1 and 5. -/
theorem rm_mem_range (t : String) (k : Int) (h : rm t = some k) :
    1 ≤ k ∧ k ≤ 5 := by
  unfold rm at h
  split_ifs at h <;> cases h <;> omega

/-- Every record of a successfully preprocessed batch carries
`rating_numeric = rm rating` for its raw token. -/
theorem _preprocess_rating (raw : List RawBook) (S : List PreBook)
    (h : _preprocess raw = some S) :
    ∀ b ∈ S, ∃ a ∈ raw, preprocess_row a = some b := by
  induction raw generalizing S with
  | nil =>
    have hn : _preprocess [] = some [] := rfl
    rw [hn] at h
    cases h
    intro b hb
    cases hb
  | cons a as ih =>
    rw [_preprocess_cons] at h
    cases ha : preprocess_row a with
    | none => rw [ha] at h; cases h
    | some p =>
      rw [ha] at h
      cases hs : _preprocess as with
      | none => rw [hs] at h; cases h
      | some ps =>
        rw [hs] at h
        simp only [Option.some_bind, Option.map_some'] at h
        cases h
        intro b hb
        rcases List.mem_cons.mp hb with rfl | hb
        · exact ⟨a, List.mem_cons_self _ _, ha⟩
        · obtain ⟨x, hx, hpx⟩ := ih ps hs b hb
          exact ⟨x, List.mem_cons_of_mem _ hx, hpx⟩

/-- Rating validity is preserved through the insert loop: rows can only be
added by `insert_one`, which requires a non-NaN rating drawn from the
batch. -/
theorem insert_loop_rating_valid (P : Int → Prop) :
    ∀ (S : List PreBook) (ex : List String) (db : DB) (c : Nat),
      (∀ r ∈ db.rows, P r.rating) →
      (∀ b ∈ S, ∀ k, b.rating_numeric = some k → P k) →
      ∀ r ∈ (insert_loop ex db c S).1.rows, P r.rating := by
  intro S
  induction S with
  | nil =>
    intro ex db c hdb _ r hr
    exact hdb r hr
  | cons b bs ih =>
    intro ex db c hdb hS r hr
    by_cases hmem : b.title ∈ ex
    · rw [insert_loop, if_pos hmem] at hr
      exact ih ex db c hdb (fun x hx => hS x (List.mem_cons_of_mem _ hx)) r hr
    · rw [insert_loop, if_neg hmem] at hr
      cases hrat : b.rating_numeric with
      | none =>
        rw [show insert_one db b = (db, false) by
              unfold insert_one; rw [hrat]] at hr
        exact ih ex db c hdb (fun x hx => hS x (List.mem_cons_of_mem _ hx)) r hr
      | some k =>
        rw [show insert_one db b =
              ({ rows := db.rows ++
                  [{ id := db.next_id, title := b.title,
                     price := b.price_numeric, rating := k,
                     availability := b.availability, url := b.url }]
                 next_id := db.next_id + 1 }, true) by
              unfold insert_one; rw [hrat]] at hr
        refine ih ex _ (c + 1) ?_ (fun x hx => hS x (List.mem_cons_of_mem _ hx)) r hr
        intro x hx
        rcases List.mem_append.mp hx with hx | hx
        · exact hdb x hx
        · rcases List.mem_singleton.mp hx with rfl
          exact hS b (List.mem_cons_self _ _) k hrat

/-- C1 (amended): the rating map is an exact, case-sensitive match against
the five-word vocabulary; a token outside the vocabulary does *not* raise
a normalization error — the record survives `_preprocess` with a NaN
(`none`) rating and is forwarded to the store, where its insert violates
the `NOT NULL` constraint and is skipped, so the store only ever contains
ratings 1–5. -/
theorem C1_rating_vocabulary :
    (∀ t k, rm t = some k ↔
        ((t = "One" ∧ k = 1) ∨ (t = "Two" ∧ k = 2) ∨ (t = "Three" ∧ k = 3) ∨
          (t = "Four" ∧ k = 4) ∨ (t = "Five" ∧ k = 5))) ∧
    (∀ (b : RawBook) (p : PreBook), preprocess_row b = some p →
        p.rating_numeric = rm b.rating) ∧
    (∀ (db : DB) (b : PreBook), b.rating_numeric = none →
        insert_one db b = (db, false)) ∧
    (∀ (raw : List RawBook) (S : List PreBook) (db : DB),
        _preprocess raw = some S →
        (∀ r ∈ db.rows, 1 ≤ r.rating ∧ r.rating ≤ 5) →
        ∀ r ∈ (insert_books db S).1.rows, 1 ≤ r.rating ∧ r.rating ≤ 5) := by
  refine ⟨?_, ?_, ?_, ?_⟩
  · intro t k
    unfold rm
    split_ifs <;> simp_all <;> omega
  · intro b p h
    unfold preprocess_row at h
    cases hq : price_cell b.price with
    | none => rw [hq] at h; cases h
    | some q =>
      rw [hq] at h
      simp only [Option.map_some'] at h
      cases h
      rfl
  · intro db b h
    unfold insert_one
    rw [h]
  · intro raw S db hpre hdb
    unfold insert_books
    split
    · exact hdb
    · refine insert_loop_rating_valid (fun k => 1 ≤ k ∧ k ≤ 5) S _ db 0 hdb ?_
      intro b hb k hk
      obtain ⟨a, _, ha⟩ := _preprocess_rating raw S hpre b hb
      have : b.rating_numeric = rm a.rating := by
        unfold preprocess_row at ha
        cases hq : price_cell a.price with
        | none => rw [hq] at ha; cases ha
        | some q =>
          rw [hq] at ha
          simp only [Option.map_some'] at ha
          cases ha
          rfl
      rw [this] at hk
      exact rm_mem_range a.rating k hk

/-- Witness for C1 at concrete inputs: the token `"Three"` maps to 3,
a NaN-rating row is rejected by the insert, and the pipeline
`_preprocess` / `insert_books` run on `oddRaw` leaves only valid ratings
(here: none at all) in the store. -/
theorem C1_witness :
    rm "Three" = some 3 ∧
      insert_one resetDB oddPre = (resetDB, false) ∧
      (∀ r ∈ (insert_books resetDB [oddPre]).1.rows,
        1 ≤ r.rating ∧ r.rating ≤ 5) :=
  ⟨(C1_rating_vocabulary.1 "Three" 3).mpr
      (Or.inr (Or.inr (Or.inl ⟨rfl, rfl⟩))),
    C1_rating_vocabulary.2.2.1 resetDB oddPre (by decide),
    C1_rating_vocabulary.2.2.2 [oddRaw] [oddPre] resetDB (by decide)
      (by decide)⟩

/-- C1 (counterexample): the out-of-vocabulary token `"Six"` does not
yield a normalization error — `_preprocess` succeeds and the resulting
frame, which is exactly what `insert_books` receives, contains the
partially-typed record with a NaN rating. -/
theorem C1_counterexample :
    _preprocess [oddRaw] = some [oddPre] ∧ oddPre.rating_numeric = none := by
  constructor <;> decide

/-! ## C4, C5: insert idempotence and title uniqueness -/

/-- The insert loop only appends rows. -/
theorem insert_loop_rows_grow :
    ∀ (S : List PreBook) (ex : List String) (db : DB) (c : Nat),
      ∃ t, (insert_loop ex db c S).1.rows = db.rows ++ t := by
  intro S
  induction S with
  | nil =>
    intro ex db c
    exact ⟨[], (List.append_nil _).symm⟩
  | cons b bs ih =>
    intro ex db c
    by_cases hmem : b.title ∈ ex
    · rw [insert_loop, if_pos hmem]
      exact ih ex db c
    · rw [insert_loop, if_neg hmem]
      cases hrat : b.rating_numeric with
      | none =>
        rw [show insert_one db b = (db, false) by
              unfold insert_one; rw [hrat]]
        exact ih ex db c
      | some k =>
        rw [show insert_one db b =
              ({ rows := db.rows ++
                  [{ id := db.next_id, title := b.title,
                     price := b.price_numeric, rating := k,
                     availability := b.availability, url := b.url }]
                 next_id := db.next_id + 1 }, true) by
              unfold insert_one; rw [hrat]]
        obtain ⟨t, ht⟩ := ih ex _ (c + 1)
        exact ⟨_, by rw [ht, List.append_assoc]⟩

/-- A batch record with a usable rating whose title is not in the
snapshot ends up in the store. -/
theorem insert_loop_lands :
    ∀ (S : List PreBook) (ex : List String) (db : DB) (c : Nat) (b : PreBook),
      b ∈ S → b.rating_numeric.isSome → b.title ∉ ex →
      b.title ∈ (insert_loop ex db c S).1.rows.map (fun r => r.title) := by
  intro S
  induction S with
  | nil =>
    intro ex db c b hb
    cases hb
  | cons a as ih =>
    intro ex db c b hb hsome hnotex
    rcases List.mem_cons.mp hb with rfl | hb
    · rw [insert_loop, if_neg hnotex]
      cases hrat : b.rating_numeric with
      | none => rw [hrat] at hsome; cases hsome
      | some k =>
        rw [show insert_one db b =
              ({ rows := db.rows ++
                  [{ id := db.next_id, title := b.title,
                     price := b.price_numeric, rating := k,
                     availability := b.availability, url := b.url }]
                 next_id := db.next_id + 1 }, true) by
              unfold insert_one; rw [hrat]]
        obtain ⟨t, ht⟩ := insert_loop_rows_grow as ex _ (c + 1)
        rw [ht]
        simp
    · by_cases hmem : a.title ∈ ex
      · rw [insert_loop, if_pos hmem]
        exact ih ex db c b hb hsome hnotex
      · rw [insert_loop, if_neg hmem]
        cases hrat : a.rating_numeric with
        | none =>
          rw [show insert_one db a = (db, false) by
                unfold insert_one; rw [hrat]]
          exact ih ex db c b hb hsome hnotex
        | some k =>
          rw [show insert_one db a =
                ({ rows := db.rows ++
                    [{ id := db.next_id, title := a.title,
                       price := a.price_numeric, rating := k,
                       availability := a.availability, url := a.url }]
                   next_id := db.next_id + 1 }, true) by
                unfold insert_one; rw [hrat]]
          exact ih ex _ (c + 1) b hb hsome hnotex

/-- If every batch record not covered by the snapshot has a NaN rating,
the loop is a complete no-op: nothing is inserted and nothing counted. -/
theorem insert_loop_noop :
    ∀ (S : List PreBook) (ex : List String) (db : DB) (c : Nat),
      (∀ b ∈ S, b.title ∉ ex → b.rating_numeric = none) →
      insert_loop ex db c S = (db, c) := by
  intro S
  induction S with
  | nil =>
    intro ex db c _
    rfl
  | cons b bs ih =>
    intro ex db c h
    by_cases hmem : b.title ∈ ex
    · rw [insert_loop, if_pos hmem]
      exact ih ex db c (fun x hx => h x (List.mem_cons_of_mem _ hx))
    · rw [insert_loop, if_neg hmem]
      rw [show insert_one db b = (db, false) by
            unfold insert_one; rw [h b (List.mem_cons_self _ _) hmem]]
      exact ih ex db c (fun x hx => h x (List.mem_cons_of_mem _ hx))

/-- C4 (confirmed): inserting the same record set twice in succession is
idempotent — the second `insert_books` call reports zero new insertions
and leaves the store (rows and id counter) completely unchanged. -/
theorem C4_insert_batch_idempotent (db : DB) (S : List PreBook) :
    insert_books (insert_books db S).1 S = ((insert_books db S).1, 0) := by
  cases hS : S with
  | nil => rfl
  | cons b bs =>
    unfold insert_books
    rw [if_neg (by simp)]
    set db1 := (insert_books db (b :: bs)).1 with hdb1
    refine insert_loop_noop (b :: bs) (db1.rows.map (fun r => r.title)) db1 0 ?_
    intro x hx hnot
    by_contra hne
    have hsome : x.rating_numeric.isSome := by
      cases hr : x.rating_numeric with
      | none => exact absurd hr hne
      | some k => rfl
    have hx1 : x.title ∈ db1.rows.map (fun r => r.title) := by
      rw [hdb1]
      unfold insert_books
      rw [if_neg (by simp)]
      by_cases hex : x.title ∈ db.rows.map (fun r => r.title)
      · obtain ⟨t, ht⟩ :=
          insert_loop_rows_grow (b :: bs) (db.rows.map (fun r => r.title)) db 0
        rw [ht, List.map_append]
        exact List.mem_append_left _ hex
      · exact insert_loop_lands (b :: bs) _ db 0 x hx hsome hex
    exact hnot hx1

/-- C5 (counterexample): one batch containing two records with the same
previously-unseen title inserts both — the dedup snapshot is taken once
before the loop, so the second record is not checked against the first
one's insert, and the store ends up with two rows titled `"Twin"`. -/
theorem C5_counterexample :
    ((insert_books resetDB [twinPre1, twinPre2]).1.rows.map
        (fun r => r.title)) = ["Twin", "Twin"] ∧
      ¬ ((insert_books resetDB [twinPre1, twinPre2]).1.rows.map
          (fun r => r.title)).Nodup := by
  constructor <;> decide

/-- If the store's titles are distinct and the batch's titles are
distinct, the loop preserves distinctness of the store's titles. -/
theorem insert_loop_nodup :
    ∀ (S : List PreBook) (ex : List String) (db : DB) (c : Nat),
      (db.rows.map (fun r => r.title)).Nodup →
      (S.map (fun b => b.title)).Nodup →
      (∀ b ∈ S, b.title ∉ ex → b.title ∉ db.rows.map (fun r => r.title)) →
      ((insert_loop ex db c S).1.rows.map (fun r => r.title)).Nodup := by
  intro S
  induction S with
  | nil =>
    intro ex db c hdb _ _
    exact hdb
  | cons b bs ih =>
    intro ex db c hdb hS hinv
    have hbs : (bs.map (fun b => b.title)).Nodup := by
      simp only [List.map_cons, List.nodup_cons] at hS
      exact hS.2
    have hbnot : b.title ∉ bs.map (fun x => x.title) := by
      simp only [List.map_cons, List.nodup_cons] at hS
      exact hS.1
    by_cases hmem : b.title ∈ ex
    · rw [insert_loop, if_pos hmem]
      exact ih ex db c hdb hbs
        (fun x hx => hinv x (List.mem_cons_of_mem _ hx))
    · rw [insert_loop, if_neg hmem]
      cases hrat : b.rating_numeric with
      | none =>
        rw [show insert_one db b = (db, false) by
              unfold insert_one; rw [hrat]]
        exact ih ex db c hdb hbs
          (fun x hx => hinv x (List.mem_cons_of_mem _ hx))
      | some k =>
        rw [show insert_one db b =
              ({ rows := db.rows ++
                  [{ id := db.next_id, title := b.title,
                     price := b.price_numeric, rating := k,
                     availability := b.availability, url := b.url }]
                 next_id := db.next_id + 1 }, true) by
              unfold insert_one; rw [hrat]]
        refine ih ex _ (c + 1) ?_ hbs ?_
        · simp only [List.map_append, List.map_cons, List.map_nil]
          rw [List.nodup_append]
          exact ⟨hdb, List.nodup_singleton _,
            by
              intro a ha hb
              rcases List.mem_singleton.mp hb with rfl
              exact hinv b (List.mem_cons_self _ _) hmem ha⟩
        · intro x hx hnx
          simp only [List.map_append, List.map_cons, List.map_nil]
          intro hmemx
          rcases List.mem_append.mp hmemx with hold | hnew
          · exact hinv x (List.mem_cons_of_mem _ hx) hnx hold
          · rcases List.mem_singleton.mp hnew with heq
            exact hbnot (heq ▸ List.mem_map_of_mem (fun y => y.title) hx)

/-- One `insert_books` call preserves distinctness of stored titles when
the batch itself has pairwise-distinct titles. -/
theorem insert_books_nodup (db : DB) (S : List PreBook)
    (hdb : (db.rows.map (fun r => r.title)).Nodup)
    (hS : (S.map (fun b => b.title)).Nodup) :
    (((insert_books db S).1).rows.map (fun r => r.title)).Nodup := by
  unfold insert_books
  split
  · exact hdb
  · exact insert_loop_nodup S (db.rows.map (fun r => r.title)) db 0 hdb hS
      (fun b _ hnot => hnot)

/-- C5 (amended): after any sequence of `insertBatch` calls starting from
a reset store, in which every single batch has pairwise-distinct titles,
the store contains at most one record per unique title.  (Without the
per-batch distinctness proviso the property fails: see the
counterexample — duplicates inside one batch are all checked against the
same pre-batch snapshot and each inserted.) -/
theorem C5_title_unique_across_batches
    (batches : List (List PreBook))
    (h : ∀ S ∈ batches, (S.map (fun b => b.title)).Nodup) :
    (((batches.foldl (fun db S => (insert_books db S).1) resetDB).rows.map
        (fun r => r.title))).Nodup := by
  suffices hgen : ∀ (bs : List (List PreBook)) (db : DB),
      (db.rows.map (fun r => r.title)).Nodup →
      (∀ S ∈ bs, (S.map (fun b => b.title)).Nodup) →
      (((bs.foldl (fun db S => (insert_books db S).1) db).rows.map
          (fun r => r.title))).Nodup by
    exact hgen batches resetDB (by simp [resetDB]) h
  intro bs
  induction bs with
  | nil =>
    intro db hdb _
    exact hdb
  | cons S rest ih =>
    intro db hdb hall
    rw [List.foldl_cons]
    exact ih ((insert_books db S).1)
      (insert_books_nodup db S hdb (hall S (List.mem_cons_self _ _)))
      (fun T hT => hall T (List.mem_cons_of_mem _ hT))

/-- Witness for C5 at two concrete single-record batches sharing a title:
the second batch's record is deduplicated and the store's titles stay
distinct. -/
theorem C5_witness :
    (∀ S ∈ [[twinPre1], [twinPre2]], (S.map (fun b => b.title)).Nodup) ∧
      ((([[twinPre1], [twinPre2]] : List (List PreBook)).foldl
          (fun db S => (insert_books db S).1) resetDB).rows.map
        (fun r => r.title)).Nodup :=
  ⟨by decide, C5_title_unique_across_batches [[twinPre1], [twinPre2]]
    (by decide)⟩

/-! ## C3, C10: pagination -/

/-- The scrape loop's result is the accumulated list plus what a fresh run
from the same starting page would collect, and its fetch log extends the
log so far likewise. -/
theorem scrape_loop_append (fp : Nat → Option (List PodItem)) :
    ∀ (n : Nat) (books : List RawBook) (fetched : List Nat) (start : Nat),
      (scrape_loop fp books fetched start n).1 =
          books ++ (scrape_loop fp [] [] start n).1 ∧
      (scrape_loop fp books fetched start n).2 =
          fetched ++ (scrape_loop fp [] [] start n).2 := by
  intro n
  induction n with
  | zero =>
    intro books fetched start
    exact ⟨by simp [scrape_loop], by simp [scrape_loop]⟩
  | succ m ih =>
    intro books fetched start
    cases h : fp start with
    | none =>
      constructor
      · simp [scrape_loop, scrape_books_from_page, h]
      · simp [scrape_loop, scrape_books_from_page, h]
    | some items =>
      cases items with
      | nil =>
        constructor
        · simp [scrape_loop, scrape_books_from_page, h]
        · simp [scrape_loop, scrape_books_from_page, h]
      | cons i is =>
        simp only [scrape_loop, scrape_books_from_page, h, List.nil_append]
        obtain ⟨ha1, ha2⟩ := ih (books ++ (i :: is).map make_book)
          (fetched ++ [start]) (start + 1)
        obtain ⟨hb1, hb2⟩ := ih ((i :: is).map make_book) [start] (start + 1)
        constructor
        · rw [ha1, hb1, List.append_assoc]
        · rw [ha2, hb2, List.append_assoc]

/-- Characterization of a fresh scrape run: the collected books are the
concatenation, in page order, of the books of the initial run of good
pages, and the fetch log is exactly pages `start, start+1, ...` up to and
including the first stopping page (or the page cap). -/
theorem scrape_loop_spec (fp : Nat → Option (List PodItem)) :
    ∀ (n : Nat) (start : Nat),
      (scrape_loop fp [] [] start n).1 =
          ((List.range' start (goodRun fp start n)).map (pageBooks fp)).flatten ∧
      (scrape_loop fp [] [] start n).2 =
          List.range' start (min n (goodRun fp start n + 1)) := by
  intro n
  induction n with
  | zero =>
    intro start
    exact ⟨rfl, rfl⟩
  | succ m ih =>
    intro start
    have hgr_if : goodRun fp start (m + 1) =
        if pageOk fp start = true then goodRun fp (start + 1) m + 1 else 0 :=
      rfl
    cases h : fp start with
    | none =>
      have hok : pageOk fp start = false := by unfold pageOk; rw [h]
      have hgr : goodRun fp start (m + 1) = 0 := by
        rw [hgr_if, hok]
        simp
      rw [hgr]
      have hmin : (m + 1) ⊓ (0 + 1) = 1 := by omega
      rw [hmin, List.range'_one]
      constructor
      · simp [scrape_loop, scrape_books_from_page, h]
      · simp [scrape_loop, scrape_books_from_page, h]
    | some items =>
      cases items with
      | nil =>
        have hok : pageOk fp start = false := by unfold pageOk; rw [h]
        have hgr : goodRun fp start (m + 1) = 0 := by
          rw [hgr_if, hok]
          simp
        rw [hgr]
        have hmin : (m + 1) ⊓ (0 + 1) = 1 := by omega
        rw [hmin, List.range'_one]
        constructor
        · simp [scrape_loop, scrape_books_from_page, h]
        · simp [scrape_loop, scrape_books_from_page, h]
      | cons i is =>
        have hok : pageOk fp start = true := by unfold pageOk; rw [h]
        have hpb : pageBooks fp start = (i :: is).map make_book := by
          unfold pageBooks; rw [h]; rfl
        have hgr : goodRun fp start (m + 1) = goodRun fp (start + 1) m + 1 := by
          rw [hgr_if, hok]
          simp
        simp only [scrape_loop, scrape_books_from_page, h, List.nil_append]
        obtain ⟨ha1, ha2⟩ :=
          scrape_loop_append fp m ((i :: is).map make_book) [start] (start + 1)
        obtain ⟨hi1, hi2⟩ := ih (start + 1)
        constructor
        · rw [ha1, hi1, hgr, List.range'_succ]
          simp [hpb]
        · rw [ha2, hi2, hgr]
          have hm : min (m + 1) (goodRun fp (start + 1) m + 1 + 1) =
              min m (goodRun fp (start + 1) m + 1) + 1 := by omega
          rw [hm, List.range'_succ]
          rfl

/-- Every page strictly inside the good run is good. -/
theorem goodRun_ok (fp : Nat → Option (List PodItem)) :
    ∀ (n start i : Nat), start ≤ i → i < start + goodRun fp start n →
      pageOk fp i = true := by
  intro n
  induction n with
  | zero =>
    intro start i _ hlt
    simp only [goodRun] at hlt
    omega
  | succ m ih =>
    intro start i hle hlt
    cases hok : pageOk fp start with
    | false =>
      unfold goodRun at hlt
      rw [hok] at hlt
      simp at hlt
      omega
    | true =>
      unfold goodRun at hlt
      rw [hok] at hlt
      simp only [if_true] at hlt
      rcases Nat.eq_or_lt_of_le hle with rfl | hgt
      · exact hok
      · exact ih (start + 1) i hgt (by omega)

/-- When the run stops before the page cap, the page right after the good
run is not good (failed fetch or zero records). -/
theorem goodRun_stop (fp : Nat → Option (List PodItem)) :
    ∀ (n start : Nat), goodRun fp start n < n →
      pageOk fp (start + goodRun fp start n) = false := by
  intro n
  induction n with
  | zero =>
    intro start h
    cases h
  | succ m ih =>
    intro start h
    cases hok : pageOk fp start with
    | false =>
      unfold goodRun
      rw [hok]
      simpa using hok
    | true =>
      unfold goodRun at h ⊢
      rw [hok] at h ⊢
      simp only [if_true] at h ⊢
      have := ih (start + 1) (by omega)
      rw [show start + (goodRun fp (start + 1) m + 1) =
            start + 1 + goodRun fp (start + 1) m by omega]
      exact this

/-- C3 (confirmed): `scrape_multiple_pages` on a fresh scraper processes
pages `1, 2, ...` in order, stops at the first page whose fetch fails or
that yields zero records (or after `num_pages` pages), and returns exactly
the concatenation, in page order, of the books of the pages before the
stop; the stopping page itself is the last one fetched, so when the run
stops at page `N+1` page `N+2` is never fetched, and a failed page-1 fetch
yields an empty result. -/
theorem C3_pagination (fp : Nat → Option (List PodItem)) (num_pages : Nat)
    (hnp : 1 ≤ num_pages) :
    (scrape_multiple_pages fp [] num_pages =
        ((List.range' 1 (goodRun fp 1 num_pages)).map (pageBooks fp)).flatten) ∧
    ((scrape_run fp [] num_pages).2 =
        List.range' 1 (min num_pages (goodRun fp 1 num_pages + 1))) ∧
    (∀ i, 1 ≤ i → i < 1 + goodRun fp 1 num_pages → pageOk fp i = true) ∧
    (goodRun fp 1 num_pages < num_pages →
        pageOk fp (1 + goodRun fp 1 num_pages) = false) ∧
    ((goodRun fp 1 num_pages + 2) ∉ (scrape_run fp [] num_pages).2) ∧
    (fp 1 = none → scrape_multiple_pages fp [] num_pages = []) := by
  obtain ⟨h1, h2⟩ := scrape_loop_spec fp num_pages 1
  refine ⟨?_, ?_, ?_, ?_, ?_, ?_⟩
  · exact h1
  · exact h2
  · intro i hi hlt
    exact goodRun_ok fp num_pages 1 i hi hlt
  · intro hlt
    exact goodRun_stop fp num_pages 1 hlt
  · rw [show (scrape_run fp [] num_pages).2 =
        (scrape_loop fp [] [] 1 num_pages).2 from rfl, h2]
    intro hmem
    have := List.mem_range'_1.mp hmem
    omega
  · intro hfail
    have hgr : goodRun fp 1 num_pages = 0 := by
      cases num_pages with
      | zero => rfl
      | succ m =>
        unfold goodRun
        rw [show pageOk fp 1 = false by unfold pageOk; rw [hfail]]
        simp
    show (scrape_loop fp [] [] 1 num_pages).1 = []
    rw [h1, hgr]
    rfl

/-- Witness for C3 on the concrete fixture: pages 1–2 carry records,
page 3 is empty — the run over up to 10 pages returns the books of pages
1 and 2, fetches exactly pages 1, 2, 3, and never fetches page 4. -/
theorem C3_witness :
    (1 ≤ 10 ∧
      scrape_multiple_pages fpEx [] 10 =
        ((List.range' 1 (goodRun fpEx 1 10)).map (pageBooks fpEx)).flatten) ∧
      goodRun fpEx 1 10 = 2 ∧
      (scrape_run fpEx [] 10).2 = [1, 2, 3] ∧
      scrape_multiple_pages fpFail [] 10 = [] :=
  ⟨⟨by omega, (C3_pagination fpEx 10 (by omega)).1⟩, by decide,
    by decide, (C3_pagination fpFail 10 (by omega)).2.2.2.2.2 rfl⟩

/-- C10 (confirmed): the accumulated book list only grows — a run returns
its instance's whole accumulated list, namely whatever was already there
followed by the books of the new run, so a second `scrape_multiple_pages`
call on the same scraper returns all books of the first call followed by
the newly scraped ones. -/
theorem C10_books_accumulate :
    (∀ (fp : Nat → Option (List PodItem)) (books : List RawBook)
        (num_pages : Nat),
        scrape_multiple_pages fp books num_pages =
          books ++ scrape_multiple_pages fp [] num_pages) ∧
    (∀ (fp fp2 : Nat → Option (List PodItem)) (n1 n2 : Nat),
        scrape_multiple_pages fp2 (scrape_multiple_pages fp [] n1) n2 =
          scrape_multiple_pages fp [] n1 ++ scrape_multiple_pages fp2 [] n2) := by
  constructor
  · intro fp books num_pages
    exact (scrape_loop_append fp num_pages books [] 1).1
  · intro fp fp2 n1 n2
    exact (scrape_loop_append fp2 n2 (scrape_multiple_pages fp [] n1) [] 1).1

/-! ## C7, C8: the query layer -/

instance : IsTotal StoredBook searchLE where
  total := by
    intro a b
    unfold searchLE
    rcases lt_trichotomy a.rating b.rating with h | h | h
    · right; left; exact h
    · rcases le_total a.price b.price with hp | hp
      · left; right; exact ⟨h, hp⟩
      · right; right; exact ⟨h.symm, hp⟩
    · left; left; exact h

instance : IsTrans StoredBook searchLE where
  trans := by
    intro a b c hab hbc
    unfold searchLE at hab hbc ⊢
    rcases hab with h1 | ⟨h1, p1⟩ <;> rcases hbc with h2 | ⟨h2, p2⟩
    · left; omega
    · left; omega
    · left; omega
    · right; exact ⟨h1.trans h2, p1.trans p2⟩

instance : IsTotal PreBook priceLE where
  total := by
    intro a b
    exact le_total a.price_numeric b.price_numeric

instance : IsTrans PreBook priceLE where
  trans := by
    intro a b c hab hbc
    exact hab.trans hbc

/-- C7 (counterexample): over a store holding two rows that tie on both
ORDER BY keys (equal rating, equal price), the output listing the ids in
descending order is an admissible result of the query — the SQL carries
no id key and SQLite leaves the relative order of equal-key rows
undefined — so the claimed tie-break by insertion order (id ascending) is
not guaranteed by the code. -/
theorem C7_counterexample :
    search_results tieDB 1 100 [tieRow2, tieRow1] ∧
      ¬ ([tieRow2, tieRow1].Pairwise (fun a b => a.id < b.id)) := by
  refine ⟨⟨?_, ?_⟩, ?_⟩ <;> decide

/-- C7 (amended): every admissible result of `query(minRating, maxPrice)`
consists of exactly the stored records with `rating ≥ minRating` and
`price ≤ maxPrice`, ordered by rating descending then price ascending;
the relative order of rows equal on both keys is left undefined by the
engine, so no id tie-break is guaranteed.  An admissible result exists
for every store, and over the tie-free store {A: rating 5 price 15,
B: rating 3 price 10, C: rating 4 price 18} the query `(4, 20)` admits
exactly one result, `[A, C]`. -/
theorem C7_search_ordering :
    (∀ (db : DB) (min_r : Int) (max_p : ℚ) (out : List StoredBook),
        search_results db min_r max_p out →
        (∀ x, x ∈ out ↔ x ∈ db.rows ∧ min_r ≤ x.rating ∧ x.price ≤ max_p) ∧
        out.Pairwise (fun a b =>
          b.rating < a.rating ∨ (a.rating = b.rating ∧ a.price ≤ b.price))) ∧
    (∀ (db : DB) (min_r : Int) (max_p : ℚ),
        ∃ out, search_results db min_r max_p out) ∧
    search_results exampleDB 4 20 [storedA, storedC] ∧
    (∀ out, search_results exampleDB 4 20 out → out = [storedA, storedC]) := by
  refine ⟨?_, ?_, ?_, ?_⟩
  · intro db min_r max_p out h
    obtain ⟨hperm, hpair⟩ := h
    constructor
    · intro x
      rw [hperm.mem_iff, List.mem_filter]
      unfold searchMatch
      simp
    · refine hpair.imp ?_
      intro a b hab
      exact hab
  · intro db min_r max_p
    exact ⟨(db.rows.filter (searchMatch min_r max_p)).insertionSort searchLE,
      List.perm_insertionSort searchLE _,
      List.sorted_insertionSort searchLE _⟩
  · exact ⟨by decide, by decide⟩
  · intro out h
    obtain ⟨hperm, hpair⟩ := h
    have hfil : exampleDB.rows.filter (searchMatch 4 20) =
        [storedA, storedC] := by decide
    rw [hfil] at hperm
    have hlen : out.length = 2 := hperm.length_eq
    obtain ⟨x, y, rfl⟩ := List.length_eq_two.mp hlen
    have hxmem : x ∈ ([storedA, storedC] : List StoredBook) :=
      hperm.mem_iff.mp (by simp)
    have hymem : y ∈ ([storedA, storedC] : List StoredBook) :=
      hperm.mem_iff.mp (by simp)
    have hcA : ([x, y] : List StoredBook).count storedA = 1 := by
      rw [hperm.count_eq]
      decide
    have hcC : ([x, y] : List StoredBook).count storedC = 1 := by
      rw [hperm.count_eq]
      decide
    rcases List.mem_pair.mp hxmem with rfl | rfl
    · rcases List.mem_pair.mp hymem with rfl | rfl
      · exact absurd hcA (by decide)
      · rfl
    · rcases List.mem_pair.mp hymem with rfl | rfl
      · exfalso
        have hCA : searchLE storedC storedA :=
          List.rel_of_pairwise_cons hpair (List.mem_singleton_self _)
        exact absurd hCA (by decide)
      · exact absurd hcC (by decide)

/-- Witness for C7 at the concrete example store and its unique
admissible output. -/
theorem C7_witness :
    search_results exampleDB 4 20 [storedA, storedC] ∧
      (∀ x, x ∈ ([storedA, storedC] : List StoredBook) ↔
          x ∈ exampleDB.rows ∧ 4 ≤ x.rating ∧ x.price ≤ 20) :=
  ⟨⟨by decide, by decide⟩,
    (C7_search_ordering.1 exampleDB 4 20 [storedA, storedC]
        ⟨by decide, by decide⟩).1⟩

/-- C8 (confirmed): `get_best_value_book` returns the records with rating
at least `min_rating`, sorted ascending by price, truncated to the first
`n`; when `n` exceeds the number of qualifying records it returns all of
them (no padding, no error); over {A: rating 5 price 15, B: rating 3
price 10, C: rating 4 price 18} the call `(4, 1)` returns `[A]`. -/
theorem C8_best_value :
    (∀ (books : List PreBook) (min_rating : Int) (n : Nat),
        (get_best_value_book books min_rating n).Sorted priceLE ∧
        (∀ b ∈ get_best_value_book books min_rating n,
            b ∈ books ∧ ratingAtLeast min_rating b = true) ∧
        (get_best_value_book books min_rating n).length =
            min n (books.filter (ratingAtLeast min_rating)).length ∧
        ((books.filter (ratingAtLeast min_rating)).length ≤ n →
            (get_best_value_book books min_rating n).Perm
              (books.filter (ratingAtLeast min_rating)))) ∧
    get_best_value_book [preA, preB, preC] 4 1 = [preA] := by
  constructor
  · intro books min_rating n
    cases books with
    | nil =>
      refine ⟨List.sorted_nil, ?_, ?_, ?_⟩
      · intro b hb
        cases hb
      · simp [get_best_value_book]
      · intro _
        exact List.Perm.refl _
    | cons x xs =>
      have hres : get_best_value_book (x :: xs) min_rating n =
          (((x :: xs).filter (ratingAtLeast min_rating)).insertionSort
            priceLE).take n := rfl
      refine ⟨?_, ?_, ?_, ?_⟩
      · rw [hres]
        exact (List.sorted_insertionSort priceLE _).sublist
          (List.take_sublist _ _)
      · intro b hb
        rw [hres] at hb
        have hb2 := (List.mem_insertionSort priceLE).mp
          (List.mem_of_mem_take hb)
        have := List.mem_filter.mp hb2
        exact ⟨this.1, this.2⟩
      · rw [hres, List.length_take, List.length_insertionSort]
      · intro hlen
        rw [hres]
        rw [List.take_of_length_le (by rw [List.length_insertionSort]; exact hlen)]
        exact List.perm_insertionSort priceLE _
  · decide

/-- Witness for C8 at the concrete example records. -/
theorem C8_witness :
    ((([preA, preB, preC] : List PreBook).filter
        (ratingAtLeast 4)).length ≤ 2) ∧
      (get_best_value_book [preA, preB, preC] 4 2).Perm
        (([preA, preB, preC] : List PreBook).filter (ratingAtLeast 4)) :=
  ⟨by decide, (C8_best_value.1 [preA, preB, preC] 4 2).2.2.2 (by decide)⟩

/-! ## C9: stats on the empty frame -/

/-- C9 (confirmed): `get_summary_stats` on an empty collection returns the
sentinel `{"total_books": 0}` dictionary — the branch is taken before any
mean/min/max arithmetic is performed, so no division by zero and no error
arises. -/
theorem C9_stats_empty_sentinel :
    get_summary_stats [] = SummaryStats.emptyFrame ∧
      SummaryStats.total_books (get_summary_stats []) = 0 :=
  ⟨rfl, rfl⟩
